import Mathlib

/-
Shallow embedding of src/weibull.js (client-side Weibull MLE with censoring,
bootstrap confidence intervals and preventive-maintenance cost model).

Modelling conventions:
* JS numbers are modelled as real numbers (ℝ).  Math.exp, Math.log, Math.pow
  and Math.sqrt become Real.exp, Real.log, Real.rpow and Real.sqrt.
* JS Infinity returned by the cost functions is modelled with WithTop ℝ, the
  finite values being coerced reals.
* Out-of-bounds JS array reads (which yield undefined) are modelled with
  Option ℝ and a lookup that returns none for a negative or too-large index.
* Math.random inside bootstrapCI is modelled by an explicit stream of draws
  rand : ℕ → ℕ → ℕ (replicate index, draw index), reduced modulo the pool
  size, matching floor(random * length) which always lands in bounds.
* The isFinite(res.beta) && isFinite(res.eta) check inside bootstrapCI tests
  IEEE-float finiteness, which has no counterpart in the real-number model
  (every real is finite); its outcome is abstracted as a boolean parameter
  keep on the replicate result, alongside the random stream.
-/

noncomputable section

namespace Weibull

/-- Survival function R_weibull(t, beta, eta) = exp(-(t/eta)^beta) from
src/weibull.js line 22. -/
def R_weibull (t beta eta : ℝ) : ℝ := Real.exp (-((t / eta) ^ beta))

/-- Density pdf_weibull from src/weibull.js line 23. -/
def pdf_weibull (t beta eta : ℝ) : ℝ :=
  (beta / eta) * (t / eta) ^ (beta - 1) * Real.exp (-((t / eta) ^ beta))

/-- Hazard rate hazard_weibull from src/weibull.js line 24. -/
def hazard_weibull (t beta eta : ℝ) : ℝ := (beta / eta) * (t / eta) ^ (beta - 1)

/-- Negative log-likelihood negLogLik(params, failures, susp) from
src/weibull.js lines 67-82.  The two JS for-loops accumulating ll are
modelled as left folds starting from 0; the guard on lines 68-69 returns the
sentinel 1e12 when beta or eta is at most 1e-6. -/
def negLogLik (params : ℝ × ℝ) (failures susp : List ℝ) : ℝ :=
  if params.1 ≤ 1e-6 ∨ params.2 ≤ 1e-6 then 1e12
  else
    let beta := params.1
    let eta := params.2
    let ll1 := failures.foldl
      (fun ll t => ll + (Real.log (beta / eta) + (beta - 1) * Real.log (t / eta)
        - (t / eta) ^ beta)) 0
    let ll2 := susp.foldl (fun ll s => ll + (-((s / eta) ^ beta))) ll1;
    -ll2

/-- Options record passed to nelderMead; none models a missing JS field. -/
structure NMOptions where
  maxIter : Option ℕ
  tol : Option ℝ

/-- Resolution of options.maxIter||2000 (src/weibull.js line 28): a missing
field, like the falsy value 0, falls back to the default 2000. -/
def resolveMaxIter (o : NMOptions) : ℕ :=
  match o.maxIter with
  | some m => if m = 0 then 2000 else m
  | none => 2000

/-- Resolution of options.tol||1e-6 (src/weibull.js line 29): a missing
field, like the falsy value 0, falls back to the default 1e-6. -/
def resolveTol (o : NMOptions) : ℝ :=
  match o.tol with
  | some t => if t = 0 then 1e-6 else t
  | none => 1e-6

/-- Initial simplex of nelderMead (src/weibull.js line 31): the starting
point and two one-axis perturbations by 0.1 * max(1, abs coordinate). -/
def initSimplex (x0 : ℝ × ℝ) : (ℝ × ℝ) × (ℝ × ℝ) × (ℝ × ℝ) :=
  (x0, (x0.1 + 0.1 * max 1 |x0.1|, x0.2), (x0.1, x0.2 + 0.1 * max 1 |x0.2|))

/-- A simplex vertex paired with its objective value. -/
abbrev NMVert : Type := (ℝ × ℝ) × ℝ

/-- Stable ascending sort of the three vertices by objective value, the
result of the JS sort with comparator (a, b) => a[0] - b[0] on value-index
pairs (src/weibull.js lines 34-36). -/
def nmSort (s : NMVert × NMVert × NMVert) : NMVert × NMVert × NMVert :=
  let ab := if s.2.1.2 < s.1.2 then (s.2.1, s.1) else (s.1, s.2.1)
  if s.2.2.2 < ab.1.2 then (s.2.2, ab.1, ab.2)
  else if s.2.2.2 < ab.2.2 then (ab.1, s.2.2, ab.2)
  else (ab.1, ab.2, s.2.2)

/-- One iteration body of nelderMead (src/weibull.js lines 34-57): sort,
reflect (alpha = 1), possibly expand (gamma = 2), else contract (rho = 0.5),
else shrink toward the best vertex (sigma = 0.5) re-evaluating all three. -/
def nmStep (f : ℝ × ℝ → ℝ) (s : NMVert × NMVert × NMVert) :
    NMVert × NMVert × NMVert :=
  let t := nmSort s
  let p0 := t.1
  let p1 := t.2.1
  let p2 := t.2.2
  let x0m : ℝ × ℝ := ((p0.1.1 + p1.1.1) / 2, (p0.1.2 + p1.1.2) / 2)
  let xr : ℝ × ℝ := (x0m.1 + 1 * (x0m.1 - p2.1.1), x0m.2 + 1 * (x0m.2 - p2.1.2))
  let fxr := f xr
  if fxr < p0.2 then
    let xe : ℝ × ℝ := (x0m.1 + 2 * (xr.1 - x0m.1), x0m.2 + 2 * (xr.2 - x0m.2))
    let fxe := f xe
    if fxe < fxr then (p0, p1, (xe, fxe)) else (p0, p1, (xr, fxr))
  else if fxr < p1.2 then (p0, p1, (xr, fxr))
  else
    let xc : ℝ × ℝ := (x0m.1 + 0.5 * (p2.1.1 - x0m.1), x0m.2 + 0.5 * (p2.1.2 - x0m.2))
    let fxc := f xc
    if fxc < p2.2 then (p0, p1, (xc, fxc))
    else
      let q1 : ℝ × ℝ := (p0.1.1 + 0.5 * (p1.1.1 - p0.1.1), p0.1.2 + 0.5 * (p1.1.2 - p0.1.2))
      let q2 : ℝ × ℝ := (p0.1.1 + 0.5 * (p2.1.1 - p0.1.1), p0.1.2 + 0.5 * (p2.1.2 - p0.1.2))
      ((p0.1, f p0.1), (q1, f q1), (q2, f q2))

/-- The iteration loop of nelderMead (src/weibull.js lines 33-61), with the
remaining iteration count as fuel: after each step the population standard
deviation of the three objective values is compared with tol and the loop
breaks early when it is below. -/
def nmLoop (f : ℝ × ℝ → ℝ) (tol : ℝ) : ℕ → NMVert × NMVert × NMVert →
    NMVert × NMVert × NMVert
  | 0, s => s
  | n + 1, s =>
    let t := nmStep f s
    let fmean := (t.1.2 + t.2.1.2 + t.2.2.2) / 3
    let ss := Real.sqrt (((t.1.2 - fmean) ^ 2 + (t.2.1.2 - fmean) ^ 2
      + (t.2.2.2 - fmean) ^ 2) / 3)
    if ss < tol then t else nmLoop f tol n t

/-- Compact Nelder-Mead minimizer nelderMead(f, x0, options) from
src/weibull.js lines 27-64, returning the pair of the best vertex and its
objective value (the JS result object with fields x and fx). -/
def nelderMead (f : ℝ × ℝ → ℝ) (x0 : ℝ × ℝ) (options : NMOptions) :
    (ℝ × ℝ) × ℝ :=
  let s := initSimplex x0
  let st : NMVert × NMVert × NMVert :=
    ((s.1, f s.1), (s.2.1, f s.2.1), (s.2.2, f s.2.2))
  let r := nmLoop f (resolveTol options) (resolveMaxIter options) st
  if r.1.2 ≤ r.2.1.2 ∧ r.1.2 ≤ r.2.2.2 then r.1
  else if r.2.1.2 ≤ r.2.2.2 then r.2.1
  else r.2.2

/-- Fit result record returned by fitWeibull. -/
structure FitResult where
  beta : ℝ
  eta : ℝ
  fx : ℝ

/-- The options literal fitWeibull passes to nelderMead
(src/weibull.js line 88). -/
def fitNMOptions : NMOptions := ⟨some 1500, some 1e-8⟩

/-- fitWeibull(failures, susp) from src/weibull.js lines 85-90: start from
beta = 1.5 and eta = mean of the failures (falling back to 1000 when there
are no failures or the mean is the falsy value 0), minimize negLogLik with
nelderMead, and clamp both returned parameters to at least 1e-6. -/
def fitWeibull (failures susp : List ℝ) : FitResult :=
  let meanF : ℝ :=
    if failures.length > 0 then failures.foldl (fun a b => a + b) 0 / failures.length
    else 1000
  let x0 : ℝ × ℝ := (1.5, if meanF = 0 then 1000 else meanF)
  let res := nelderMead (fun p => negLogLik p failures susp) x0 fitNMOptions
  { beta := max 1e-6 res.1.1, eta := max 1e-6 res.1.2, fx := res.2 }

/-- Numeric integration integrateR(Rfunc, args, a, b, n) from src/weibull.js
lines 122-130: the loop accumulates Rfunc(a + i*h, beta, eta) for i from 0 to
n inclusive, each with full weight, and the sum is multiplied by h at the
end. -/
def integrateR (Rfunc : ℝ → ℝ → ℝ → ℝ) (args : ℝ × ℝ) (a b : ℝ) (n : ℕ) : ℝ :=
  let h := (b - a) / n
  let s := (List.range (n + 1)).foldl
    (fun (s : ℝ) (i : ℕ) => s + Rfunc (a + (i : ℝ) * h) args.1 args.2) 0;
  s * h

/-- Modelled from the spec wording of claim C2 for comparison: the composite
trapezoidal rule h * (f(a)/2 + sum of f(a + i*h) for i = 1 .. n-1 + f(b)/2)
with h = (b-a)/n. -/
def trapezoidSpec (f : ℝ → ℝ) (a b : ℝ) (n : ℕ) : ℝ :=
  let h := (b - a) / n
  h * (f a / 2
    + ((List.range (n - 1)).map (fun (i : ℕ) => f (a + ((i : ℝ) + 1) * h))).sum
    + f b / 2)

/-- Preventive-maintenance cost rate CPM_num from src/weibull.js lines
131-135; the JS Infinity returned for t at most 0 is the top element of
WithTop ℝ. -/
def CPM_num (t beta eta C_PM : ℝ) : WithTop ℝ :=
  if t ≤ 0 then ⊤
  else
    let integral := integrateR R_weibull (beta, eta) 0 t 300;
    ((C_PM * R_weibull t beta eta / integral : ℝ) : WithTop ℝ)

/-- Corrective-maintenance cost rate CCM_num from src/weibull.js lines
136-141. -/
def CCM_num (t beta eta C_CM : ℝ) : WithTop ℝ :=
  if t ≤ 0 then ⊤
  else
    let integral := integrateR R_weibull (beta, eta) 0 t 300
    let F := 1 - R_weibull t beta eta;
    ((C_CM * F / integral : ℝ) : WithTop ℝ)

/-- Total cost rate CPUT_num from src/weibull.js lines 142-147. -/
def CPUT_num (t beta eta C_PM C_CM : ℝ) : WithTop ℝ :=
  if t ≤ 0 then ⊤
  else
    let integral := integrateR R_weibull (beta, eta) 0 t 300
    let F := 1 - R_weibull t beta eta;
    (((C_PM * R_weibull t beta eta + C_CM * F) / integral : ℝ) : WithTop ℝ)

/-- Bootstrap result record returned by bootstrapCI (src/weibull.js lines
114-118).  Each interval bound is an Option ℝ, since the JS array reads
betas[...] and etas[...] can fall outside the array and then produce
undefined, modelled as none. -/
structure BootstrapResult where
  beta_ci : Option ℝ × Option ℝ
  eta_ci : Option ℝ × Option ℝ
  raw : List (ℝ × ℝ)

/-- JS array read arr[i] with an integer index: undefined (none) for a
negative or out-of-range index, the element otherwise. -/
def arrGet (l : List ℝ) (i : ℤ) : Option ℝ :=
  if i < 0 then none else l[i.toNat]?

/-- The event pool of bootstrapCI (src/weibull.js lines 94-96): failures
flagged not-censored followed by suspensions flagged censored. -/
def mkEvents (failures susp : List ℝ) : List (ℝ × Bool) :=
  failures.map (fun t => (t, false)) ++ susp.map (fun t => (t, true))

/-- Percentile aggregation of bootstrapCI (src/weibull.js lines 110-118):
sort the beta and eta replicate values ascending, take the index pair
floor((1-conf)/2 * count) clamped below by 0 and
ceil((1-(1-conf)/2) * count) - 1 clamped above by count - 1, and read both
sorted arrays at those indices. -/
def aggregate (boots : List (ℝ × ℝ)) (conf : ℝ) : BootstrapResult :=
  let betas := (boots.map Prod.fst).mergeSort (fun a b => decide (a ≤ b))
  let etas := (boots.map Prod.snd).mergeSort (fun a b => decide (a ≤ b))
  let len : ℤ := (boots.length : ℤ)
  let low : ℤ := ⌊(1 - conf) / 2 * (boots.length : ℝ)⌋
  let high : ℤ := ⌈(1 - (1 - conf) / 2) * (boots.length : ℝ)⌉
  { beta_ci := (arrGet betas (max 0 low), arrGet betas (min (len - 1) (high - 1))),
    eta_ci := (arrGet etas (max 0 low), arrGet etas (min (len - 1) (high - 1))),
    raw := boots }

/-- Bootstrap confidence-interval estimator bootstrapCI from src/weibull.js
lines 93-119.  The draw floor(random * pool size), always in bounds, is
modelled as rand i j reduced modulo the pool size, where i is the replicate
index and j the draw index; the cooperative await on line 108 has no effect
on the computed value and is dropped.  The isFinite filter on line 107 tests
IEEE-float finiteness of the replicate fit, which has no counterpart for
real numbers, so its outcome is the abstract boolean parameter keep. -/
def bootstrapCI (failures susp : List ℝ) (nboot : ℕ) (conf : ℝ)
    (rand : ℕ → ℕ → ℕ) (keep : ℝ × ℝ → Bool) : Option BootstrapResult :=
  let events := mkEvents failures susp
  if events.length < 3 then none
  else
    let boots := (List.range nboot).foldl
      (fun (boots : List (ℝ × ℝ)) (i : ℕ) =>
        let sample := (List.range events.length).map
          (fun (j : ℕ) => events.getD (rand i j % events.length) (0, false))
        let sf := (sample.filter (fun x => ! x.2)).map Prod.fst
        let ss := (sample.filter (fun x => x.2)).map Prod.fst
        let res := fitWeibull sf ss
        if keep (res.beta, res.eta) then boots ++ [(res.beta, res.eta)]
        else boots) []
    some (aggregate boots conf)

/-- Folding addition of f over a list starting from init is init plus the sum
of the mapped list. -/
theorem foldl_add_map (f : ℝ → ℝ) :
    ∀ (l : List ℝ) (init : ℝ),
      l.foldl (fun a x => a + f x) init = init + (l.map f).sum := by
  intro l
  induction l with
  | nil => intro init; simp
  | cons x xs ih =>
      intro init
      simp only [List.foldl_cons, List.map_cons, List.sum_cons, ih]
      ring

/-- Folding addition of any real-valued function over a list of naturals
starting from init is init plus the sum of the mapped list. -/
theorem foldl_add_map_nat (g : ℕ → ℝ) :
    ∀ (l : List ℕ) (init : ℝ),
      l.foldl (fun a x => a + g x) init = init + (l.map g).sum := by
  intro l
  induction l with
  | nil => intro init; simp
  | cons x xs ih =>
      intro init
      simp only [List.foldl_cons, List.map_cons, List.sum_cons, ih]
      ring

/-- C1: for beta > 1e-6 and eta > 1e-6, negLogLik returns the negation of the
sum over failures of log(beta/eta) + (beta-1) log(t/eta) - (t/eta)^beta plus
the sum over suspensions of -(s/eta)^beta. -/
theorem negLogLik_formula_of_valid (beta eta : ℝ) (failures susp : List ℝ)
    (hb : 1e-6 < beta) (he : 1e-6 < eta) :
    negLogLik (beta, eta) failures susp =
      -((failures.map (fun t => Real.log (beta / eta)
          + (beta - 1) * Real.log (t / eta) - (t / eta) ^ beta)).sum
        + (susp.map (fun s => -((s / eta) ^ beta))).sum) := by
  have hcond : ¬ ((beta, eta).1 ≤ 1e-6 ∨ (beta, eta).2 ≤ 1e-6) := by
    push_neg
    exact ⟨hb, he⟩
  simp only [negLogLik, if_neg hcond]
  rw [foldl_add_map, foldl_add_map]
  ring

/-- Witness for C1 at beta = 1, eta = 1, failures = [2], susp = [3]. -/
theorem negLogLik_formula_witness :
    (1e-6 : ℝ) < 1 ∧
      negLogLik (1, 1) [2] [3] =
        -((([2] : List ℝ).map (fun t => Real.log ((1 : ℝ) / 1)
            + ((1 : ℝ) - 1) * Real.log (t / 1) - (t / 1) ^ (1 : ℝ))).sum
          + (([3] : List ℝ).map (fun s => -((s / 1) ^ (1 : ℝ)))).sum) :=
  ⟨by norm_num,
    negLogLik_formula_of_valid 1 1 [2] [3] (by norm_num) (by norm_num)⟩

/-- C3: for beta at most 1e-6 or eta at most 1e-6, negLogLik returns the
sentinel 1e12, which is at least 1e11 (and being a real number of the model
it is finite, neither infinity nor NaN, and no error is raised since the
function is total). -/
theorem negLogLik_sentinel (params : ℝ × ℝ) (failures susp : List ℝ)
    (h : params.1 ≤ 1e-6 ∨ params.2 ≤ 1e-6) :
    negLogLik params failures susp = 1e12 ∧
      (1e11 : ℝ) ≤ negLogLik params failures susp := by
  simp only [negLogLik, if_pos h]
  norm_num

/-- Witness for C3 at beta = 0, eta = -1 on a nonempty dataset. -/
theorem negLogLik_sentinel_witness :
    (((0 : ℝ), (-1 : ℝ)).1 ≤ 1e-6 ∨ ((0 : ℝ), (-1 : ℝ)).2 ≤ 1e-6) ∧
      (negLogLik (0, -1) [5] [7] = 1e12 ∧
        (1e11 : ℝ) ≤ negLogLik (0, -1) [5] [7]) :=
  ⟨Or.inl (by norm_num),
    negLogLik_sentinel (0, -1) [5] [7] (Or.inl (by norm_num))⟩

/-- C4: the parameters returned by fitWeibull are clamped to the validity
floor 1e-6, hence in particular strictly positive, never zero or negative,
for every input dataset. -/
theorem fitWeibull_clamped (failures susp : List ℝ) :
    1e-6 ≤ (fitWeibull failures susp).beta ∧ 0 < (fitWeibull failures susp).beta ∧
      1e-6 ≤ (fitWeibull failures susp).eta ∧ 0 < (fitWeibull failures susp).eta := by
  have hb : 1e-6 ≤ (fitWeibull failures susp).beta := le_max_left _ _
  have he : 1e-6 ≤ (fitWeibull failures susp).eta := le_max_left _ _
  have hpos : (0 : ℝ) < 1e-6 := by norm_num
  exact ⟨hb, lt_of_lt_of_le hpos hb, he, lt_of_lt_of_le hpos he⟩

/-- C5 counterexample: fitWeibull passes an iteration cap of 1500 while the
optimizer default is 2000, so the cap is not raised above the default. -/
theorem fitWeibull_maxIter_not_raised :
    resolveMaxIter fitNMOptions = 1500 ∧ resolveMaxIter ⟨none, none⟩ = 2000 ∧
      ¬ resolveMaxIter ⟨none, none⟩ < resolveMaxIter fitNMOptions := by
  refine ⟨rfl, rfl, ?_⟩
  decide

/-- C5 amended: fitWeibull invokes nelderMead with tolerance 1e-8, tighter
than the default tolerance 1e-6, and with an iteration cap of 1500, lowered
below the default iteration cap of 2000. -/
theorem fitWeibull_options_amended :
    resolveTol fitNMOptions = 1e-8 ∧ resolveTol ⟨none, none⟩ = 1e-6 ∧
      resolveTol fitNMOptions < resolveTol ⟨none, none⟩ ∧
      resolveMaxIter fitNMOptions = 1500 ∧ resolveMaxIter ⟨none, none⟩ = 2000 ∧
      resolveMaxIter fitNMOptions < resolveMaxIter ⟨none, none⟩ := by
  have h8 : resolveTol fitNMOptions = 1e-8 := by
    simp only [resolveTol, fitNMOptions]
    rw [if_neg (by norm_num)]
  refine ⟨h8, rfl, ?_, rfl, rfl, by decide⟩
  rw [h8]
  norm_num [resolveTol]

/-- C6: the initial simplex is the starting point together with the two
one-axis perturbations by 10 percent of the coordinate magnitude, at least
0.1 in absolute units, and the three vertices span a nonzero oriented area
for every starting point. -/
theorem initSimplex_nondegenerate (x0 : ℝ × ℝ) :
    initSimplex x0 =
      (x0, (x0.1 + max 0.1 (0.1 * |x0.1|), x0.2),
        (x0.1, x0.2 + max 0.1 (0.1 * |x0.2|))) ∧
      ((initSimplex x0).2.1.1 - (initSimplex x0).1.1)
          * ((initSimplex x0).2.2.2 - (initSimplex x0).1.2)
        - ((initSimplex x0).2.1.2 - (initSimplex x0).1.2)
          * ((initSimplex x0).2.2.1 - (initSimplex x0).1.1) ≠ 0 := by
  have hmax : ∀ y : ℝ, 0.1 * max 1 |y| = max 0.1 (0.1 * |y|) := by
    intro y
    rcases le_total 1 |y| with h | h
    · rw [max_eq_right h, max_eq_right (by nlinarith)]
    · rw [max_eq_left h, max_eq_left (by nlinarith)]
      norm_num
  have hpos : ∀ y : ℝ, (0 : ℝ) < 0.1 * max 1 |y| := by
    intro y
    have h1 : (1 : ℝ) ≤ max 1 |y| := le_max_left _ _
    nlinarith
  constructor
  · simp only [initSimplex, hmax]
  · simp only [initSimplex]
    have h1 := hpos x0.1
    have h2 := hpos x0.2
    have : (x0.1 + 0.1 * max 1 |x0.1| - x0.1) * (x0.2 + 0.1 * max 1 |x0.2| - x0.2)
        - (x0.2 - x0.2) * (x0.1 - x0.1) = (0.1 * max 1 |x0.1|) * (0.1 * max 1 |x0.2|) := by
      ring
    rw [this]
    positivity

/-- C2 evaluation at the failing input: for the constant integrand 1 on
[0, 1] with n = 1 subinterval, integrateR returns 2 while the trapezoidal
rule gives 1, because integrateR weights both endpoints fully instead of by
one half. -/
theorem integrateR_not_trapezoid :
    integrateR (fun _ _ _ => 1) (0, 0) 0 1 1 = 2 ∧
      trapezoidSpec (fun _ => 1) 0 1 1 = 1 ∧
      integrateR (fun _ _ _ => 1) (0, 0) 0 1 1 ≠ trapezoidSpec (fun _ => 1) 0 1 1 := by
  have h1 : integrateR (fun _ _ _ => 1) (0, 0) 0 1 1 = 2 := by
    simp [integrateR, List.range_succ]
    norm_num
  have h2 : trapezoidSpec (fun _ => 1) 0 1 1 = 1 := by
    simp [trapezoidSpec]
    norm_num
  refine ⟨h1, h2, ?_⟩
  rw [h1, h2]
  norm_num

/-- General characterization of the slip behind C2: for n at least 1,
integrateR equals the trapezoidal rule plus the extra half weight of both
endpoints, h * (f(a) + f(b)) / 2, so the two differ whenever that extra term
is nonzero. -/
theorem integrateR_eq_trapezoid_plus_endpoints (f : ℝ → ℝ) (a b : ℝ) (n : ℕ)
    (hn : 1 ≤ n) :
    integrateR (fun t _ _ => f t) (0, 0) a b n =
      trapezoidSpec f a b n + (b - a) / n * (f a + f b) / 2 := by
  obtain ⟨m, rfl⟩ : ∃ m, n = m + 1 := ⟨n - 1, (Nat.succ_pred_eq_of_pos hn).symm⟩
  have hn0 : ((m : ℝ) + 1) ≠ 0 := by positivity
  simp only [integrateR, trapezoidSpec, Nat.add_sub_cancel]
  rw [foldl_add_map_nat]
  have hcast : ((m + 1 : ℕ) : ℝ) = (m : ℝ) + 1 := by push_cast; ring
  rw [hcast]
  set h := (b - a) / ((m : ℝ) + 1) with hh
  have hb : a + ((m : ℝ) + 1) * h = b := by
    rw [hh]
    field_simp
  set A := ((List.range (m + 1)).map (fun (i : ℕ) => f (a + (i : ℝ) * h))).sum with hA
  have htop : ((List.range (m + 1 + 1)).map (fun (i : ℕ) => f (a + (i : ℝ) * h))).sum
      = A + f b := by
    rw [List.range_succ, List.map_append, List.sum_append, ← hA]
    simp only [List.map_cons, List.map_nil, List.sum_cons, List.sum_nil]
    rw [hcast, hb]
    ring
  have hshift : A = f a
      + ((List.range m).map (fun (i : ℕ) => f (a + ((i : ℝ) + 1) * h))).sum := by
    rw [hA, List.range_succ_eq_map, List.map_cons, List.sum_cons, List.map_map]
    have harg : ∀ i : ℕ, ((fun i : ℕ => f (a + (i : ℝ) * h)) ∘ Nat.succ) i
        = f (a + ((i : ℝ) + 1) * h) := by
      intro i
      simp only [Function.comp]
      congr 1
      push_cast
      ring
    rw [List.map_congr_left (fun i _ => harg i)]
    norm_num
  rw [htop, hshift]
  ring

/-- C8: for t at most 0, all three cost rate functions return infinity,
for every beta, eta and unit costs. -/
theorem cost_top_of_nonpos (t beta eta cpm ccm : ℝ) (h : t ≤ 0) :
    CPM_num t beta eta cpm = ⊤ ∧ CCM_num t beta eta ccm = ⊤ ∧
      CPUT_num t beta eta cpm ccm = ⊤ := by
  refine ⟨?_, ?_, ?_⟩ <;>
    simp only [CPM_num, CCM_num, CPUT_num, if_pos h]

/-- Witness for C8 at t = 0 with beta = 2, eta = 1000, costs 5 and 50. -/
theorem cost_top_witness :
    (0 : ℝ) ≤ 0 ∧
      (CPM_num 0 2 1000 5 = ⊤ ∧ CCM_num 0 2 1000 50 = ⊤ ∧
        CPUT_num 0 2 1000 5 50 = ⊤) :=
  ⟨le_refl 0, cost_top_of_nonpos 0 2 1000 5 50 (le_refl 0)⟩

/-- C9: for t > 0 the total cost rate decomposes additively, since all three
functions divide by the same numerical integral of R over [0, t] with 300
subintervals. -/
theorem CPUT_decompose (t beta eta cpm ccm : ℝ) (h : 0 < t) :
    CPUT_num t beta eta cpm ccm =
      CPM_num t beta eta cpm + CCM_num t beta eta ccm := by
  have hn : ¬ t ≤ 0 := not_le.mpr h
  simp only [CPUT_num, CPM_num, CCM_num, if_neg hn]
  rw [← WithTop.coe_add, WithTop.coe_eq_coe, add_div]

/-- Witness for C9 at t = 1, beta = 1, eta = 1, costs 2 and 3. -/
theorem CPUT_decompose_witness :
    (0 : ℝ) < 1 ∧
      CPUT_num 1 1 1 2 3 = CPM_num 1 1 1 2 + CCM_num 1 1 1 3 :=
  ⟨by norm_num, CPUT_decompose 1 1 1 2 3 (by norm_num)⟩

/-- C7: for a dataset with fewer than 3 observations, bootstrapCI returns
none before attempting any fit, for every replicate count, confidence level,
random stream and finiteness outcome. -/
theorem bootstrapCI_guard (failures susp : List ℝ) (nboot : ℕ) (conf : ℝ)
    (rand : ℕ → ℕ → ℕ) (keep : ℝ × ℝ → Bool)
    (h : failures.length + susp.length < 3) :
    bootstrapCI failures susp nboot conf rand keep = none := by
  have hlen : (mkEvents failures susp).length = failures.length + susp.length := by
    simp [mkEvents]
  simp only [bootstrapCI]
  rw [hlen, if_pos h]

/-- Witness for C7 on a dataset with exactly 2 observations. -/
theorem bootstrapCI_guard_witness :
    [(100 : ℝ)].length + [(200 : ℝ)].length < 3 ∧
      bootstrapCI [100] [200] 7 0.9 (fun _ _ => 0) (fun _ => true) = none :=
  ⟨by decide,
    bootstrapCI_guard [100] [200] 7 0.9 (fun _ _ => 0) (fun _ => true) (by decide)⟩

/-- C10: on a dataset of 3 failures and 1 suspension, with 5 replicates all
discarded by the finiteness filter, bootstrapCI still returns a non-null
result whose interval bounds are out-of-range array reads (undefined,
modelled none) instead of the null that signals no result. -/
theorem bootstrapCI_empty_boots :
    bootstrapCI [100, 150, 80] [200] 5 0.9 (fun _ _ => 0) (fun _ => false) =
      some { beta_ci := (none, none), eta_ci := (none, none), raw := [] } := by
  norm_num [bootstrapCI, mkEvents, aggregate, arrGet, List.range_succ,
    List.mergeSort_nil]

end Weibull
